import Mathlib

/-!
Shallow embedding of the underwriting core of `src/underwriter.py`:
the regex-based PDF extraction (`parse_financials_from_pdf`), the
Yahoo-feed adapter (`fetch_financials_from_ticker` with its `safe_get`
helper), the CSV upload path (`pd.read_csv` followed by the row lookup
inside `calculate_limits.fetch`), and the credit-limit engine
(`calculate_limits`).  Python floats are modelled as exact rationals;
a Python expression that raises is modelled as `Option.none` at the
point where the exception escapes or is caught.
-/

/-- Value of a decimal digit character (Python `float` accepts only ASCII
digits in the forms this pipeline produces). -/
def digitVal (c : Char) : Nat := c.toNat - 48

/-- Decimal digit character for `m < 10` (used when rendering a float back
to its decimal string). -/
def decChar (m : Nat) : Char :=
  if m = 0 then '0' else if m = 1 then '1' else if m = 2 then '2'
  else if m = 3 then '3' else if m = 4 then '4' else if m = 5 then '5'
  else if m = 6 then '6' else if m = 7 then '7' else if m = 8 then '8' else '9'

/-- Accumulator-style reading of a digit string, most significant first. -/
def digitsToNatAux (acc : Nat) : List Char → Nat
  | [] => acc
  | c :: cs => digitsToNatAux (acc * 10 + digitVal c) cs

/-- Numeric value of a digit string. -/
def digitsToNat (s : List Char) : Nat := digitsToNatAux 0 s

/-- Decimal digits of `n`, least significant first (empty for 0). -/
def natDigitsRev (n : Nat) : List Char :=
  if h : n = 0 then [] else decChar (n % 10) :: natDigitsRev (n / 10)
decreasing_by exact Nat.div_lt_self (Nat.pos_of_ne_zero h) (by decide)

/-- Decimal rendering of `n`, most significant first. -/
def natToDigits (n : Nat) : List Char :=
  if n = 0 then ['0'] else (natDigitsRev n).reverse

/-- Left-pad a digit string with zeros to length `d`. -/
def padLeft (d : Nat) (l : List Char) : List Char :=
  List.replicate (d - l.length) '0' ++ l

/-- Split a character list at the first character failing `p`
(Python regex greedy character-class repetition). -/
def takeWhileP (p : Char → Bool) : List Char → List Char × List Char
  | [] => ([], [])
  | c :: cs =>
    if p c then
      let r := takeWhileP p cs
      (c :: r.1, r.2)
    else ([], c :: cs)

/-- Model of Python `float()` on an unsigned plain decimal string
(`digits`, `digits.`, `digits.digits`, `.digits`): `none` models the
`ValueError` Python raises otherwise.  Exponent and special forms never
reach `float()` in this pipeline. -/
def pyFloatCore (s : List Char) : Option ℚ :=
  let a := takeWhileP Char.isDigit s
  match a.2 with
  | [] => if a.1 = [] then none else some (mkRat (digitsToNat a.1) 1)
  | c :: r2 =>
    if c = '.' then
      let b := takeWhileP Char.isDigit r2
      if b.2 = [] then
        if a.1 = [] ∧ b.1 = [] then none
        else some (mkRat (digitsToNat a.1 * 10 ^ b.1.length + digitsToNat b.1) (10 ^ b.1.length))
      else none
    else none

/-- Model of Python `float()` on a string, with an optional sign. -/
def pyFloat (s : List Char) : Option ℚ :=
  match s with
  | [] => pyFloatCore []
  | c :: r =>
    if c = '-' then (pyFloatCore r).map (fun v => -v)
    else if c = '+' then pyFloatCore r
    else pyFloatCore (c :: r)

/-- Model of `val.replace(',', '')` from `parse_financials_from_pdf`. -/
def stripCommas (s : List Char) : List Char := s.filter (fun c => c ≠ ',')

/-- Numeric normalization of a raw matched token, as done at
`underwriter.py:82-83`: drop thousands separators, then `float()`. -/
def normalizeTok (t : List Char) : Option ℚ := pyFloat (stripCommas t)

/-- Case-insensitive character comparison (the `re.IGNORECASE` flag). -/
def lowEq (a b : Char) : Bool := a.toLower == b.toLower

/-- Does the literal pattern match at the head of the text
(case-insensitively)? -/
def matchesAt : List Char → List Char → Bool
  | [], _ => true
  | _ :: _, [] => false
  | p :: ps, t :: ts => lowEq p t && matchesAt ps ts

/-- Characters accepted by the leading character class of the numeric
group regex `[\d,]+\.?\d*`. -/
def numHead (c : Char) : Bool := c.isDigit || c == ','

/-- Greedy match of the numeric group `[\d,]+\.?\d*` at the head of the
text: returns the matched token and the rest, or `none`. -/
def numTokenMatch (s : List Char) : Option (List Char × List Char) :=
  let a := takeWhileP numHead s
  if a.1 = [] then none
  else
    match a.2 with
    | [] => some (a.1, [])
    | c :: r2 =>
      if c = '.' then
        let b := takeWhileP Char.isDigit r2
        some (a.1 ++ c :: b.1, b.2)
      else some (a.1, c :: r2)

/-- Lazy scan `.*?` for the first position where the numeric group
matches; `.` does not cross a newline (no `re.DOTALL`). -/
def scanNum : List Char → Option (List Char)
  | [] => none
  | c :: cs =>
    if c = '\n' then none
    else
      match numTokenMatch (c :: cs) with
      | some t => some t.1
      | none => scanNum cs

/-- Model of `re.search(fr"{pattern}.*?([\d,]+\.?\d*)", text, re.IGNORECASE)`
for a literal `pattern`: try each start position left to right; at the
first position where the pattern matches and a numeric token follows on
the same line, return that (lazily first) token. -/
def searchFrom (pat : List Char) : List Char → Option (List Char)
  | [] => none
  | c :: cs =>
    if matchesAt pat (c :: cs) then
      match scanNum (List.drop pat.length (c :: cs)) with
      | some tok => some tok
      | none => searchFrom pat cs
    else searchFrom pat cs

/-- The inner pattern loop of `parse_financials_from_pdf` (lines 79-84):
patterns are tried in list order and the first one whose regex search
succeeds supplies the raw token (`break`). -/
def resolveItem : List (List Char) → List Char → Option (List Char)
  | [], _ => none
  | p :: ps, text =>
    match searchFrom p text with
    | some tok => some tok
    | none => resolveItem ps text

/-- The keyword mapping of `parse_financials_from_pdf` (lines 60-75):
canonical item to ordered label patterns. -/
def pdfMapping : List (String × List String) := [
  ("Cash & Bank Balances", ["Cash", "Bank Balance"]),
  ("Sundry Debtors (Receivables)", ["Debtors", "Receivables", "Trade Receivables"]),
  ("Inventory (Stock)", ["Inventory", "Stock", "Closing Stock"]),
  ("Sundry Creditors (Trade)", ["Creditors", "Payables", "Trade Payables"]),
  ("Other Current Liabilities", ["Other Current Liab"]),
  ("Short Term Bank Borrowings", ["Short Term Borrowing", "Working Capital Loan", "CC Limit"]),
  ("Long Term Loans", ["Long Term", "Secured Loan", "Term Loan"]),
  ("Tangible Net Worth", ["Net Worth", "Equity", "Shareholders Funds"]),
  ("EBITDA", ["EBITDA", "Operating Profit"]),
  ("Annual Turnover (Revenue)", ["Turnover", "Revenue", "Sales"]),
  ("Total Raw Material Purchases", ["Purchases", "Cost of Materials"]),
  ("Interest & Finance Charges", ["Interest", "Finance Cost"]),
  ("Import Content (%)", ["Import"]),
  ("Operating Cycle (Days)", ["Cycle", "Days"])]

/-- The canonical keys of the PDF adapter, in mapping order. -/
def pdfKeys : List String := pdfMapping.map Prod.fst

/-- Value stored in `extracted_data` for one item: `some 0` when no
pattern matched (the `.get(key, 0.0)` default at line 88), the normalized
token when one did, and `none` when `float()` raises at line 83. -/
def itemVal (pats : List String) (text : List Char) : Option ℚ :=
  match resolveItem (pats.map String.toList) text with
  | none => some 0
  | some tok => normalizeTok tok

/-- The extraction loop plus final-list assembly of
`parse_financials_from_pdf`: one `(item, value)` row per mapping entry,
`none` when an uncaught `float()` exception escapes the function. -/
def extractItems : List (String × List String) → List Char → Option (List (String × ℚ))
  | [], _ => some []
  | (k, pats) :: rest, text =>
    match itemVal pats text, extractItems rest text with
    | some v, some st => some ((k, v) :: st)
    | _, _ => none

/-- Model of `parse_financials_from_pdf` on the concatenated page text:
the produced statement rows, or `none` when the function raises. -/
def parse_financials_from_pdf (text : List Char) : Option (List (String × ℚ)) :=
  extractItems pdfMapping text

/-- A feed series (one reporting period): field name to value, `none`
standing for a NaN/missing entry. -/
def lookupSeries (series : List (String × Option ℚ)) (k : String) : Option (Option ℚ) :=
  (series.find? (fun r => r.1 == k)).map Prod.snd

/-- Model of the `safe_get` helper (lines 117-125): try the keys in order,
return the first value that is present and not NaN, else the default. -/
def safe_get (series : List (String × Option ℚ)) (keys : List String) (default : ℚ) : ℚ :=
  match keys with
  | [] => default
  | k :: ks =>
    match lookupSeries series k with
    | some (some v) => v
    | some none => safe_get series ks default
    | none => safe_get series ks default

/-- The canonical keys of the ticker adapter, in construction order
(note: no `Operating Cycle (Days)` row, unlike the PDF adapter). -/
def tickerKeys : List String :=
  ["Cash & Bank Balances", "Sundry Debtors (Receivables)", "Inventory (Stock)",
   "Sundry Creditors (Trade)", "Other Current Liabilities",
   "Short Term Bank Borrowings", "Long Term Loans", "Tangible Net Worth",
   "EBITDA", "Annual Turnover (Revenue)", "Total Raw Material Purchases",
   "Interest & Finance Charges", "Import Content (%)"]

/-- Model of `fetch_financials_from_ticker` (lines 95-207) on the feed's
chronologically ordered balance-sheet and income-statement periods: an
empty balance sheet yields `none` (the error return at line 109);
otherwise the most recent period of each (`iloc[:, 0]`, with an empty
series when the income statement is empty) feeds `safe_get`, and
`Import Content (%)` is fixed at 30. -/
def fetch_financials_from_ticker (bsPeriods isPeriods : List (List (String × Option ℚ))) :
    Option (List (String × ℚ)) :=
  match bsPeriods with
  | [] => none
  | latest_bs :: _ =>
    let latest_is := isPeriods.headD []
    some [
      ("Cash & Bank Balances", safe_get latest_bs
        ["Cash And Cash Equivalents", "Cash Cash Equivalents And Short Term Investments",
         "Cash Financial", "Cash"] 0),
      ("Sundry Debtors (Receivables)", safe_get latest_bs
        ["Receivables", "Accounts Receivable", "Net Receivables", "Gross Accounts Receivable"] 0),
      ("Inventory (Stock)", safe_get latest_bs
        ["Inventory", "Raw Materials", "Finished Goods"] 0),
      ("Sundry Creditors (Trade)", safe_get latest_bs
        ["Accounts Payable", "Payables", "Payables And Accrued Expenses"] 0),
      ("Other Current Liabilities", safe_get latest_bs
        ["Other Current Liabilities", "Current Deferred Liabilities", "Current Accrued Expenses"] 0),
      ("Short Term Bank Borrowings", safe_get latest_bs
        ["Current Debt", "Current Debt And Capital Lease Obligation", "Short Long Term Debt"] 0),
      ("Long Term Loans", safe_get latest_bs
        ["Long Term Debt", "Long Term Debt And Capital Lease Obligation",
         "Total Non Current Liabilities Net Minority Interest"] 0),
      ("Tangible Net Worth", safe_get latest_bs
        ["Stockholders Equity", "Total Equity Gross Minority Interest", "Common Stock Equity"] 0),
      ("EBITDA", safe_get latest_is
        ["EBITDA", "Normalized EBITDA", "Operating Income"] 0),
      ("Annual Turnover (Revenue)", safe_get latest_is
        ["Total Revenue", "Operating Revenue", "Revenue"] 0),
      ("Total Raw Material Purchases", safe_get latest_is
        ["Cost Of Revenue", "Cost Of Goods Sold"] 0),
      ("Interest & Finance Charges", safe_get latest_is
        ["Interest Expense", "Interest Expense Non Operating", "Net Interest Income"] 0),
      ("Import Content (%)", 30)]

/-- One `Amount_INR` cell of the working DataFrame: either an
already-numeric value (demo / PDF / ticker paths) or a raw string as read
from an uploaded CSV. -/
inductive Cell where
  | num (q : ℚ)
  | str (s : String)
deriving DecidableEq

/-- What `calculate_limits.fetch` obtains from a cell:
`float()` of a string cell, with the surrounding `except` turning a
`ValueError` into 0.0. -/
def cellValue : Cell → ℚ
  | Cell.num v => v
  | Cell.str s => (pyFloat s.toList).getD 0

/-- Model of the `fetch` closure of `calculate_limits` (lines 216-218):
value of the first row whose `Financial_Item` equals `item`, 0.0 when the
lookup or the `float()` conversion fails. -/
def fetchDf (df : List (String × Cell)) (item : String) : ℚ :=
  match df.find? (fun r => r.1 == item) with
  | some r => cellValue r.2
  | none => 0

/-- Model of the CSV upload path (`pd.read_csv`, line 322) as seen by
`fetch`: the first row is the header; rows are kept verbatim, keyed by
the `Financial_Item` column with the raw `Amount_INR` cell.  When either
column is missing every `fetch` raises and is caught, which is the same
as an empty frame. -/
def csv_to_df (rows : List (List String)) : List (String × Cell) :=
  match rows with
  | [] => []
  | header :: data =>
    match header.findIdx? (fun c => c == "Financial_Item"),
          header.findIdx? (fun c => c == "Amount_INR") with
    | some i, some j => data.map (fun row => (row.getD i "", Cell.str (row.getD j "")))
    | _, _ => []

/-- The Demo Mode DataFrame (lines 302-305). -/
def demo_df : List (String × Cell) := [
  ("Cash & Bank Balances", Cell.num 2000000),
  ("Sundry Debtors (Receivables)", Cell.num 6000000),
  ("Inventory (Stock)", Cell.num 5000000),
  ("Sundry Creditors (Trade)", Cell.num 3500000),
  ("Other Current Liabilities", Cell.num 1000000),
  ("Short Term Bank Borrowings", Cell.num 2500000),
  ("Long Term Loans", Cell.num 7000000),
  ("Tangible Net Worth", Cell.num 12000000),
  ("EBITDA", Cell.num 6500000),
  ("Annual Turnover (Revenue)", Cell.num 45000000),
  ("Total Raw Material Purchases", Cell.num 28000000),
  ("Interest & Finance Charges", Cell.num 900000),
  ("Import Content (%)", Cell.num 45)]

/-- Python float truthiness in `fetch('Import Content (%)') or 30`:
0.0 is falsy, everything else passes through. -/
def pyOr (a b : ℚ) : ℚ := if a = 0 then b else a

/-- The numeric outputs of `calculate_limits` (the `_BRK` strings are
fixed text and carry no data). -/
structure Limits where
  WC : ℚ
  TL : ℚ
  LC : ℚ
  BG : ℚ
  BILL : ℚ
  DSCR : ℚ
  LEVERAGE : ℚ
  CA : ℚ
  OCL : ℚ
  EB : ℚ
  TD : ℚ

/-- Model of `calculate_limits` (lines 215-257). -/
def calculate_limits (df : List (String × Cell)) : Limits :=
  let cash := fetchDf df "Cash & Bank Balances"
  let debtors := fetchDf df "Sundry Debtors (Receivables)"
  let inventory := fetchDf df "Inventory (Stock)"
  let creditors := fetchDf df "Sundry Creditors (Trade)"
  let other_cl := fetchDf df "Other Current Liabilities"
  let revenue := fetchDf df "Annual Turnover (Revenue)"
  let ebitda := fetchDf df "EBITDA"
  let st_debt := fetchDf df "Short Term Bank Borrowings"
  let lt_debt := fetchDf df "Long Term Loans"
  let purchases := fetchDf df "Total Raw Material Purchases"
  let interest := fetchDf df "Interest & Finance Charges"
  let ca := cash + debtors + inventory
  let ocl := creditors + other_cl
  let margin := (0.25 : ℚ) * ca
  let wc_limit := max 0 (ca - margin - ocl)
  let total_debt := st_debt + lt_debt
  let tl_headroom := max 0 (ebitda * (3.5 : ℚ) - total_debt)
  let import_pct := pyOr (fetchDf df "Import Content (%)") 30
  let lc_limit := ((purchases * (import_pct / 100)) / 12) * 4
  let bg_limit := revenue * (0.10 : ℚ)
  let bill_limit := debtors * (0.80 : ℚ)
  { WC := wc_limit
    TL := tl_headroom
    LC := lc_limit
    BG := bg_limit
    BILL := bill_limit
    DSCR := if interest + total_debt / 5 > 0 then ebitda / (interest + total_debt / 5) else 0
    LEVERAGE := if ebitda > 0 then total_debt / ebitda else 0
    CA := ca
    OCL := ocl
    EB := ebitda
    TD := total_debt }

/-- Helper: the working-capital field of `calculate_limits`, spelled out. -/
theorem calculate_limits_WC (df : List (String × Cell)) :
    (calculate_limits df).WC =
      max 0 ((fetchDf df "Cash & Bank Balances" + fetchDf df "Sundry Debtors (Receivables)" +
          fetchDf df "Inventory (Stock)") -
        (0.25 : ℚ) * (fetchDf df "Cash & Bank Balances" + fetchDf df "Sundry Debtors (Receivables)" +
          fetchDf df "Inventory (Stock)") -
        (fetchDf df "Sundry Creditors (Trade)" + fetchDf df "Other Current Liabilities")) := rfl

/-- Helper: the term-loan field of `calculate_limits`, spelled out. -/
theorem calculate_limits_TL (df : List (String × Cell)) :
    (calculate_limits df).TL =
      max 0 (fetchDf df "EBITDA" * (3.5 : ℚ) -
        (fetchDf df "Short Term Bank Borrowings" + fetchDf df "Long Term Loans")) := rfl

/-- Helper: the letter-of-credit field of `calculate_limits`, spelled out. -/
theorem calculate_limits_LC (df : List (String × Cell)) :
    (calculate_limits df).LC =
      ((fetchDf df "Total Raw Material Purchases" *
        (pyOr (fetchDf df "Import Content (%)") 30 / 100)) / 12) * 4 := rfl

/-- Helper: the bank-guarantee field of `calculate_limits`, spelled out. -/
theorem calculate_limits_BG (df : List (String × Cell)) :
    (calculate_limits df).BG = fetchDf df "Annual Turnover (Revenue)" * (0.10 : ℚ) := rfl

/-- Helper: the bill-discounting field of `calculate_limits`, spelled out. -/
theorem calculate_limits_BILL (df : List (String × Cell)) :
    (calculate_limits df).BILL = fetchDf df "Sundry Debtors (Receivables)" * (0.80 : ℚ) := rfl

/-- Helper: the DSCR field of `calculate_limits`, spelled out. -/
theorem calculate_limits_DSCR (df : List (String × Cell)) :
    (calculate_limits df).DSCR =
      (if fetchDf df "Interest & Finance Charges" +
          (fetchDf df "Short Term Bank Borrowings" + fetchDf df "Long Term Loans") / 5 > 0
       then fetchDf df "EBITDA" /
          (fetchDf df "Interest & Finance Charges" +
            (fetchDf df "Short Term Bank Borrowings" + fetchDf df "Long Term Loans") / 5)
       else 0) := rfl

/-- Helper: the leverage field of `calculate_limits`, spelled out. -/
theorem calculate_limits_LEVERAGE (df : List (String × Cell)) :
    (calculate_limits df).LEVERAGE =
      (if fetchDf df "EBITDA" > 0
       then (fetchDf df "Short Term Bank Borrowings" + fetchDf df "Long Term Loans") /
          fetchDf df "EBITDA"
       else 0) := rfl

/-- C1: for every statement the working-capital limit equals
`max(0, CA − 0.25·CA − OCL)` with `CA = CashAndBank + Debtors + Inventory`
and `OCL = Creditors + OtherCurrentLiabilities`, and on the statement
with CashAndBank=2,000,000, Debtors=6,000,000, Inventory=5,000,000,
Creditors=3,500,000, OtherCL=1,000,000 (the demo data) it is 5,250,000. -/
theorem c1_working_capital_limit :
    (∀ df : List (String × Cell),
      (calculate_limits df).WC =
        max 0 ((fetchDf df "Cash & Bank Balances" + fetchDf df "Sundry Debtors (Receivables)" +
            fetchDf df "Inventory (Stock)") -
          (0.25 : ℚ) * (fetchDf df "Cash & Bank Balances" + fetchDf df "Sundry Debtors (Receivables)" +
            fetchDf df "Inventory (Stock)") -
          (fetchDf df "Sundry Creditors (Trade)" + fetchDf df "Other Current Liabilities")))
    ∧ (calculate_limits demo_df).WC = 5250000 := by
  constructor
  · intro df
    exact calculate_limits_WC df
  · have h1 : fetchDf demo_df "Cash & Bank Balances" = 2000000 := by rfl
    have h2 : fetchDf demo_df "Sundry Debtors (Receivables)" = 6000000 := by rfl
    have h3 : fetchDf demo_df "Inventory (Stock)" = 5000000 := by rfl
    have h4 : fetchDf demo_df "Sundry Creditors (Trade)" = 3500000 := by rfl
    have h5 : fetchDf demo_df "Other Current Liabilities" = 1000000 := by rfl
    rw [calculate_limits_WC, h1, h2, h3, h4, h5]
    norm_num [max_def]

/-- Helper: every value `fetch` can return from a frame whose cells all
carry non-negative fetched values is non-negative (unknown items give 0). -/
theorem fetchDf_nonneg (df : List (String × Cell))
    (h : ∀ r ∈ df, 0 ≤ cellValue r.2) (item : String) : 0 ≤ fetchDf df item := by
  unfold fetchDf
  cases hf : df.find? (fun r => r.1 == item) with
  | none => exact le_refl 0
  | some r => exact h r (List.mem_of_find?_eq_some hf)

/-- C2: on a well-formed statement (every fetched value non-negative) the
engine returns all five facility amounts and both ratios non-negative.
The model is a total function on exact rationals, so `calculate_limits`
cannot raise and cannot produce NaN or an infinity: the zero-denominator
cases are absorbed by the explicit guards proved here. -/
theorem c2_limits_nonneg (df : List (String × Cell))
    (h : ∀ item : String, 0 ≤ fetchDf df item) :
    0 ≤ (calculate_limits df).WC ∧ 0 ≤ (calculate_limits df).TL ∧
    0 ≤ (calculate_limits df).LC ∧ 0 ≤ (calculate_limits df).BG ∧
    0 ≤ (calculate_limits df).BILL ∧ 0 ≤ (calculate_limits df).DSCR ∧
    0 ≤ (calculate_limits df).LEVERAGE := by
  refine ⟨?_, ?_, ?_, ?_, ?_, ?_, ?_⟩
  · rw [calculate_limits_WC]
    exact le_max_left 0 _
  · rw [calculate_limits_TL]
    exact le_max_left 0 _
  · rw [calculate_limits_LC]
    have hp := h "Total Raw Material Purchases"
    have hi : 0 ≤ pyOr (fetchDf df "Import Content (%)") 30 := by
      unfold pyOr
      split
      · norm_num
      · exact h "Import Content (%)"
    have : (0:ℚ) ≤ (fetchDf df "Total Raw Material Purchases" *
        (pyOr (fetchDf df "Import Content (%)") 30 / 100)) / 12 := by
      apply div_nonneg _ (by norm_num)
      exact mul_nonneg hp (div_nonneg hi (by norm_num))
    exact mul_nonneg this (by norm_num)
  · rw [calculate_limits_BG]
    exact mul_nonneg (h "Annual Turnover (Revenue)") (by norm_num)
  · rw [calculate_limits_BILL]
    exact mul_nonneg (h "Sundry Debtors (Receivables)") (by norm_num)
  · rw [calculate_limits_DSCR]
    split
    · exact div_nonneg (h "EBITDA") (le_of_lt (by assumption))
    · exact le_refl 0
  · rw [calculate_limits_LEVERAGE]
    split
    · exact div_nonneg (add_nonneg (h "Short Term Bank Borrowings") (h "Long Term Loans"))
        (le_of_lt (by assumption))
    · exact le_refl 0

/-- Witness for C2 at the demo statement. -/
theorem c2_limits_nonneg_witness :
    0 ≤ (calculate_limits demo_df).WC ∧ 0 ≤ (calculate_limits demo_df).TL ∧
    0 ≤ (calculate_limits demo_df).LC ∧ 0 ≤ (calculate_limits demo_df).BG ∧
    0 ≤ (calculate_limits demo_df).BILL ∧ 0 ≤ (calculate_limits demo_df).DSCR ∧
    0 ≤ (calculate_limits demo_df).LEVERAGE :=
  c2_limits_nonneg demo_df
    (fetchDf_nonneg demo_df (by intro r hr; fin_cases hr <;> norm_num [cellValue]))

/-- C3: leverage is TotalDebt/EBITDA exactly when EBITDA > 0 and 0
otherwise, DSCR is EBITDA/(Interest + TotalDebt/5) exactly when that
denominator > 0 and 0 otherwise, with TotalDebt = ShortTermBorrowings +
LongTermLoans; a zero or negative denominator is absorbed to 0, and in
the rational model no division is ever performed on it, so nothing is
raised and no infinite value appears. -/
theorem c3_ratio_guards (df : List (String × Cell)) :
    ((calculate_limits df).LEVERAGE =
      (if fetchDf df "EBITDA" > 0
       then (fetchDf df "Short Term Bank Borrowings" + fetchDf df "Long Term Loans") /
          fetchDf df "EBITDA"
       else 0)) ∧
    ((calculate_limits df).DSCR =
      (if fetchDf df "Interest & Finance Charges" +
          (fetchDf df "Short Term Bank Borrowings" + fetchDf df "Long Term Loans") / 5 > 0
       then fetchDf df "EBITDA" /
          (fetchDf df "Interest & Finance Charges" +
            (fetchDf df "Short Term Bank Borrowings" + fetchDf df "Long Term Loans") / 5)
       else 0)) ∧
    (fetchDf df "EBITDA" ≤ 0 → (calculate_limits df).LEVERAGE = 0) ∧
    (fetchDf df "Interest & Finance Charges" +
        (fetchDf df "Short Term Bank Borrowings" + fetchDf df "Long Term Loans") / 5 ≤ 0 →
      (calculate_limits df).DSCR = 0) := by
  refine ⟨calculate_limits_LEVERAGE df, calculate_limits_DSCR df, ?_, ?_⟩
  · intro hle
    rw [calculate_limits_LEVERAGE]
    exact if_neg (not_lt.mpr hle)
  · intro hle
    rw [calculate_limits_DSCR]
    exact if_neg (not_lt.mpr hle)

/-- Witness for C3 on the all-defaulted (empty) statement, whose EBITDA
and DSCR denominator are both 0. -/
theorem c3_ratio_guards_witness :
    (calculate_limits []).LEVERAGE = 0 ∧ (calculate_limits []).DSCR = 0 :=
  ⟨(c3_ratio_guards []).2.2.1 (by norm_num [fetchDf]),
   (c3_ratio_guards []).2.2.2 (by norm_num [fetchDf])⟩

/-- C8: the letter-of-credit limit is `(Purchases × p/100 / 12) × 4`
where `p` is the statement's Import Content (%) value except that 0 is
replaced by 30 (Python `or`-defaulting of a falsy 0.0); on the demo data
(Purchases 28,000,000, Import 45) this is 4,200,000, and with Purchases
1200 and an unresolved Import Content of 0 the substituted 30 gives 120. -/
theorem c8_letter_of_credit :
    (∀ df : List (String × Cell),
      (calculate_limits df).LC =
        ((fetchDf df "Total Raw Material Purchases" *
          ((if fetchDf df "Import Content (%)" = 0 then 30
            else fetchDf df "Import Content (%)") / 100)) / 12) * 4)
    ∧ (calculate_limits demo_df).LC = 4200000
    ∧ (calculate_limits [("Total Raw Material Purchases", Cell.num 1200)]).LC = 120 := by
  refine ⟨fun df => calculate_limits_LC df, ?_, ?_⟩
  · have h1 : fetchDf demo_df "Total Raw Material Purchases" = 28000000 := by rfl
    have h2 : fetchDf demo_df "Import Content (%)" = 45 := by rfl
    rw [calculate_limits_LC, h1, h2]
    norm_num [pyOr]
  · have h1 : fetchDf [("Total Raw Material Purchases", Cell.num 1200)]
        "Total Raw Material Purchases" = 1200 := by rfl
    have h2 : fetchDf [("Total Raw Material Purchases", Cell.num 1200)]
        "Import Content (%)" = 0 := by rfl
    rw [calculate_limits_LC, h1, h2]
    norm_num [pyOr]

/-- C5: in the pattern loop the first pattern whose search succeeds
supplies the token, whatever later patterns would find; with patterns
`["Debtors", "Receivables"]` on a text carrying `Receivables: 200` and
`Debtors: 100`, the value attached to the first-listed pattern's
occurrence (100) is chosen, not 200. -/
theorem c5_first_pattern_wins :
    (∀ (p : List Char) (ps : List (List Char)) (text tok : List Char),
      searchFrom p text = some tok → resolveItem (p :: ps) text = some tok)
    ∧ itemVal ["Debtors", "Receivables"] "Receivables: 200\nDebtors: 100".toList = some 100
    ∧ itemVal ["Debtors", "Receivables"] "Receivables: 200\nDebtors: 100".toList ≠ some 200 := by
  refine ⟨?_, by rfl, by decide⟩
  intro p ps text tok h
  simp [resolveItem, h]

/-- Witness for C5: the Debtors pattern of the concrete example, applied
on its own. -/
theorem c5_first_pattern_wins_witness :
    resolveItem ["Debtors".toList, "Receivables".toList]
      "Receivables: 200\nDebtors: 100".toList = some "100".toList :=
  c5_first_pattern_wins.1 "Debtors".toList ["Receivables".toList]
    "Receivables: 200\nDebtors: 100".toList "100".toList (by rfl)

/-- C10: a feed key whose value in the selected period is present but
NaN is skipped, lookup falling through to the next synonym or the
default; consequently `safe_get` only ever returns the default or an
actual (non-NaN) feed value, so no NaN enters the statement built by
`fetch_financials_from_ticker`. -/
theorem c10_safe_get_skips_nan :
    (∀ (series : List (String × Option ℚ)) (k : String) (ks : List String) (d : ℚ),
      lookupSeries series k = some none →
        safe_get series (k :: ks) d = safe_get series ks d)
    ∧ (∀ (series : List (String × Option ℚ)) (keys : List String) (d : ℚ),
        safe_get series keys d = d ∨
        ∃ k ∈ keys, lookupSeries series k = some (some (safe_get series keys d))) := by
  constructor
  · intro series k ks d h
    simp [safe_get, h]
  · intro series keys d
    induction keys with
    | nil => exact Or.inl rfl
    | cons k ks ih =>
      cases hl : lookupSeries series k with
      | none =>
        have he : safe_get series (k :: ks) d = safe_get series ks d := by
          simp [safe_get, hl]
        rw [he]
        cases ih with
        | inl h => exact Or.inl h
        | inr h =>
          obtain ⟨k', hk', h'⟩ := h
          exact Or.inr ⟨k', List.mem_cons_of_mem _ hk', h'⟩
      | some v =>
        cases v with
        | none =>
          have he : safe_get series (k :: ks) d = safe_get series ks d := by
            simp [safe_get, hl]
          rw [he]
          cases ih with
          | inl h => exact Or.inl h
          | inr h =>
            obtain ⟨k', hk', h'⟩ := h
            exact Or.inr ⟨k', List.mem_cons_of_mem _ hk', h'⟩
        | some w =>
          refine Or.inr ⟨k, List.mem_cons_self _ _, ?_⟩
          have he : safe_get series (k :: ks) d = w := by
            simp [safe_get, hl]
          rw [he, hl]

/-- Witness for C10: a series where the first synonym is present but NaN
and the second carries 7. -/
theorem c10_safe_get_skips_nan_witness :
    safe_get [("A", none), ("B", some 7)] ["A", "B"] 0 =
      safe_get [("A", none), ("B", some 7)] ["B"] 0 :=
  c10_safe_get_skips_nan.1 [("A", none), ("B", some 7)] "A" ["B"] 0 (by rfl)

/-- Helper: the PDF extraction loop emits exactly the mapping's keys, in
mapping order, whenever it returns at all. -/
theorem extractItems_keys (m : List (String × List String)) (text : List Char) :
    ∀ st : List (String × ℚ), extractItems m text = some st →
      st.map Prod.fst = m.map Prod.fst := by
  induction m with
  | nil =>
    intro st h
    simp [extractItems] at h
    simp [← h]
  | cons kp rest ih =>
    intro st h
    obtain ⟨k, pats⟩ := kp
    unfold extractItems at h
    cases hv : itemVal pats text with
    | none => rw [hv] at h; simp at h
    | some v =>
      cases hr : extractItems rest text with
      | none => rw [hv, hr] at h; simp at h
      | some st' =>
        rw [hv, hr] at h
        simp only [Option.some.injEq] at h
        rw [← h]
        simp [ih st' hr]

/-- Helper: an item none of whose patterns matched is present with
value 0 in the emitted statement (the `.get(key, 0.0)` default). -/
theorem extractItems_default (m : List (String × List String)) (text : List Char) :
    ∀ (st : List (String × ℚ)) (k : String) (pats : List String),
      extractItems m text = some st → (k, pats) ∈ m →
      resolveItem (pats.map String.toList) text = none → (k, (0:ℚ)) ∈ st := by
  induction m with
  | nil =>
    intro st k pats _ hm
    simp at hm
  | cons kp rest ih =>
    intro st k pats h hm hr
    obtain ⟨k', pats'⟩ := kp
    unfold extractItems at h
    cases hv : itemVal pats' text with
    | none => rw [hv] at h; simp at h
    | some v =>
      cases hre : extractItems rest text with
      | none => rw [hv, hre] at h; simp at h
      | some st' =>
        rw [hv, hre] at h
        simp only [Option.some.injEq] at h
        rw [← h]
        rcases List.mem_cons.mp hm with heq | hmem
        · obtain ⟨hk, hp⟩ := Prod.mk.injEq .. ▸ heq
          subst hk
          subst hp
          have : itemVal pats text = some 0 := by
            unfold itemVal
            rw [hr]
          rw [this] at hv
          simp only [Option.some.injEq] at hv
          subst hv
          exact List.mem_cons_self _ _
        · exact List.mem_cons_of_mem _ (ih st' k pats hre hmem hr)

/-- Helper: the ticker adapter emits exactly `tickerKeys` whenever the
balance sheet is non-empty. -/
theorem fetch_financials_from_ticker_keys
    (bsPeriods isPeriods : List (List (String × Option ℚ))) :
    ∀ st : List (String × ℚ), fetch_financials_from_ticker bsPeriods isPeriods = some st →
      st.map Prod.fst = tickerKeys := by
  intro st h
  cases bsPeriods with
  | nil => simp [fetch_financials_from_ticker] at h
  | cons b rest =>
    simp only [fetch_financials_from_ticker, Option.some.injEq] at h
    rw [← h]
    rfl

/-- C4 (amended): every statement freshly produced by the PDF adapter
carries exactly one entry per key of its 14-item mapping in order (0.0
for an item no pattern resolved), and every statement produced by the
external-feed adapter carries exactly one entry per key of its 13-item
list; both key lists are duplicate-free.  (The tabular/CSV path gives no
such guarantee: see the counterexample.) -/
theorem c4_adapter_totality :
    (∀ (text : List Char) (st : List (String × ℚ)),
      parse_financials_from_pdf text = some st → st.map Prod.fst = pdfKeys)
    ∧ (∀ (text : List Char) (st : List (String × ℚ)) (k : String) (pats : List String),
      parse_financials_from_pdf text = some st → (k, pats) ∈ pdfMapping →
      resolveItem (pats.map String.toList) text = none → (k, (0:ℚ)) ∈ st)
    ∧ (∀ (bsPeriods isPeriods : List (List (String × Option ℚ))) (st : List (String × ℚ)),
      fetch_financials_from_ticker bsPeriods isPeriods = some st →
        st.map Prod.fst = tickerKeys)
    ∧ pdfKeys.Nodup ∧ tickerKeys.Nodup := by
  refine ⟨?_, ?_, ?_, by decide, by decide⟩
  · intro text st h
    exact extractItems_keys pdfMapping text st h
  · intro text st k pats h hm hr
    exact extractItems_default pdfMapping text st k pats h hm hr
  · intro bsPeriods isPeriods st h
    exact fetch_financials_from_ticker_keys bsPeriods isPeriods st h

/-- Witness for C4 (amended): the PDF adapter on empty text and the
ticker adapter on a single empty period both emit their full key lists. -/
theorem c4_adapter_totality_witness :
    ((parse_financials_from_pdf []).getD []).map Prod.fst = pdfKeys ∧
    ((fetch_financials_from_ticker [[]] []).getD []).map Prod.fst = tickerKeys :=
  ⟨c4_adapter_totality.1 [] ((parse_financials_from_pdf []).getD []) (by rfl),
   (c4_adapter_totality.2.2.1 [[]] [] ((fetch_financials_from_ticker [[]] []).getD []) (by rfl))⟩

/-- Counterexample for C4 as stated: a statement freshly produced by the
tabular (CSV upload) adapter from a two-row file listing only EBITDA
has no entry for the canonical item Cash & Bank Balances, so not every
freshly produced statement is total over the canonical set. -/
theorem c4_totality_counterexample :
    "Cash & Bank Balances" ∈ pdfKeys ∧
    (csv_to_df [["Financial_Item", "Amount_INR"], ["EBITDA", "100"]]).map Prod.fst =
      ["EBITDA"] ∧
    "Cash & Bank Balances" ∉
      (csv_to_df [["Financial_Item", "Amount_INR"], ["EBITDA", "100"]]).map Prod.fst := by
  refine ⟨by decide, by rfl, by decide⟩

/-- C6 (amended): the tabular (CSV) path performs no row-content pattern
search; the uploaded rows are kept verbatim, and `fetch` resolves an
item only from the first data row whose `Financial_Item` cell equals the
canonical label exactly, via `float()` on the raw `Amount_INR` cell
(0.0 on failure); a row with label `Sundry Creditors (Trade)` and a
plain numeric amount cell does resolve. -/
theorem c6_csv_exact_match :
    (∀ (header : List String) (data : List (List String)) (item : String) (i j : Nat),
      header.findIdx? (fun c => c == "Financial_Item") = some i →
      header.findIdx? (fun c => c == "Amount_INR") = some j →
      fetchDf (csv_to_df (header :: data)) item =
        ((data.find? (fun row => row.getD i "" == item)).map
          (fun row => (pyFloat (row.getD j "").toList).getD 0)).getD 0)
    ∧ fetchDf (csv_to_df [["Financial_Item", "Amount_INR"],
        ["Sundry Creditors (Trade)", "3500000.00"]]) "Sundry Creditors (Trade)" = 3500000 := by
  constructor
  · intro header data item i j hi hj
    simp only [csv_to_df, hi, hj]
    unfold fetchDf
    rw [List.find?_map]
    simp only [Function.comp_def]
    cases hf : data.find? (fun row => row.getD i "" == item) with
    | none => simp
    | some row => simp [cellValue]
  · decide

/-- Witness for C6 (amended) at the two-row file whose label matches the
canonical name exactly. -/
theorem c6_csv_exact_match_witness :
    fetchDf (csv_to_df [["Financial_Item", "Amount_INR"],
        ["Sundry Creditors (Trade)", "3500000.00"]]) "Sundry Creditors (Trade)" =
      (((([["Sundry Creditors (Trade)", "3500000.00"]] :
          List (List String)).find? (fun row => row.getD 0 "" == "Sundry Creditors (Trade)")).map
        (fun row => (pyFloat (row.getD 1 "").toList).getD 0)).getD 0) :=
  c6_csv_exact_match.1 ["Financial_Item", "Amount_INR"]
    [["Sundry Creditors (Trade)", "3500000.00"]] "Sundry Creditors (Trade)" 0 1
    (by rfl) (by rfl)

/-- Counterexample for C6 as stated: the claimed row
`["Sundry Creditors", "Opening", "3,500,000.00"]` does not resolve the
Creditors item to 3,500,000.0 — both under the canonical label and under
the row's own first cell the fetched value is 0, because no cell-level
pattern search happens and `float("3,500,000.00")` raises (caught to 0). -/
theorem c6_csv_counterexample :
    fetchDf (csv_to_df [["Financial_Item", "Stage", "Amount_INR"],
        ["Sundry Creditors", "Opening", "3,500,000.00"]]) "Sundry Creditors (Trade)" = 0 ∧
    fetchDf (csv_to_df [["Financial_Item", "Stage", "Amount_INR"],
        ["Sundry Creditors", "Opening", "3,500,000.00"]]) "Sundry Creditors" = 0 ∧
    (3500000 : ℚ) ≠ 0 := by
  refine ⟨by rfl, by rfl, by norm_num⟩


/-- Helper: a literal pattern matches at the head of any text that
starts with it. -/
theorem matchesAt_self_append (l r : List Char) : matchesAt l (l ++ r) = true := by
  induction l with
  | nil => rfl
  | cons c cs ih =>
    show matchesAt (c :: cs) (c :: (cs ++ r)) = true
    simp only [matchesAt, lowEq, beq_self_eq_true, Bool.true_and]
    exact ih

/-- Helper: characters kept by `takeWhileP` satisfy the predicate. -/
theorem takeWhileP_mem (p : Char → Bool) (s : List Char) :
    ∀ c ∈ (takeWhileP p s).1, p c = true := by
  induction s with
  | nil => intro c hc; simp [takeWhileP] at hc
  | cons a as ih =>
    intro c hc
    by_cases hp : p a
    · simp only [takeWhileP, if_pos hp] at hc
      rcases List.mem_cons.mp hc with h | h
      · rw [h]; exact hp
      · exact ih c h
    · simp only [takeWhileP, if_neg hp] at hc
      simp at hc

/-- Helper: the numeric group cannot match at a character outside its
leading class. -/
theorem numTokenMatch_none (c : Char) (cs : List Char) (h : numHead c = false) :
    numTokenMatch (c :: cs) = none := by
  simp only [numTokenMatch, takeWhileP, h, if_neg Bool.false_ne_true]
  simp

/-- Helper: a successful numeric-group match starts with a character of
its leading class. -/
theorem numTokenMatch_head (s t r : List Char) (h : numTokenMatch s = some (t, r)) :
    ∃ c cs, t = c :: cs ∧ numHead c = true := by
  unfold numTokenMatch at h
  by_cases ha : (takeWhileP numHead s).1 = []
  · rw [if_pos ha] at h
    exact absurd h (by simp)
  · rw [if_neg ha] at h
    obtain ⟨c, cs, hc⟩ := List.exists_cons_of_ne_nil ha
    have hmem : numHead c = true := takeWhileP_mem numHead s c (hc ▸ List.mem_cons_self c cs)
    revert h
    cases h2 : (takeWhileP numHead s).2 with
    | nil =>
      intro h
      simp only [Option.some.injEq, Prod.mk.injEq] at h
      exact ⟨c, cs, by rw [← h.1, hc], hmem⟩
    | cons d r2 =>
      intro h
      dsimp only at h
      by_cases hd : d = '.'
      · rw [if_pos hd] at h
        simp only [Option.some.injEq, Prod.mk.injEq] at h
        rw [hc] at h
        exact ⟨c, cs ++ d :: (takeWhileP Char.isDigit r2).1, by rw [← h.1]; rfl, hmem⟩
      · rw [if_neg hd] at h
        simp only [Option.some.injEq, Prod.mk.injEq] at h
        exact ⟨c, cs, by rw [← h.1, hc], hmem⟩

/-- Helper: the lazy gap scan passes over characters that are neither
newline nor numeric-class without finding a token. -/
theorem scanNum_skip (mid rest : List Char)
    (h : ∀ c ∈ mid, numHead c = false ∧ c ≠ '\n') :
    scanNum (mid ++ rest) = scanNum rest := by
  induction mid with
  | nil => rfl
  | cons c cs ih =>
    have hc := h c (List.mem_cons_self c cs)
    have hih := ih (fun d hd => h d (List.mem_cons_of_mem c hd))
    show scanNum (c :: (cs ++ rest)) = scanNum rest
    rw [scanNum, if_neg hc.2, numTokenMatch_none c (cs ++ rest) hc.1]
    exact hih

/-- Helper: where the numeric group matches, the lazy scan returns
exactly the matched token. -/
theorem scanNum_at_token (tok post : List Char)
    (htok : numTokenMatch (tok ++ post) = some (tok, post)) :
    scanNum (tok ++ post) = some tok := by
  obtain ⟨c, cs, hct, hch⟩ := numTokenMatch_head (tok ++ post) tok post htok
  have hne : c ≠ '\n' := by
    intro he
    rw [he] at hch
    simp [numHead, Char.isDigit] at hch
  rw [hct]
  rw [hct] at htok
  simp only [List.cons_append] at htok ⊢
  rw [scanNum, if_neg hne, htok]

/-- Helper: start positions strictly inside a prefix where the pattern
never matches are skipped by the search. -/
theorem searchFrom_skip (pat pre R : List Char)
    (h : ∀ i, i < pre.length → matchesAt pat (List.drop i (pre ++ R)) = false) :
    searchFrom pat (pre ++ R) = searchFrom pat R := by
  induction pre with
  | nil => rfl
  | cons c cs ih =>
    have h0 : matchesAt pat (c :: (cs ++ R)) = false := by
      have := h 0 (Nat.succ_pos _)
      simpa using this
    have hih := ih (fun i hi => by
      have := h (i + 1) (Nat.succ_lt_succ hi)
      simpa using this)
    show searchFrom pat (c :: (cs ++ R)) = searchFrom pat R
    rw [searchFrom, if_neg (by simp [h0])]
    exact hih

/-- C7: the free-text adapter's search resolves a label occurrence to
the first numeric-looking token downstream of it, within the bounded
window of the label's line (the lazy gap cannot cross a newline): for
any text decomposed as `pre ++ label ++ mid ++ tok ++ post` where the
pattern does not match at any position inside `pre`, `mid` holds no
newline and no numeric-class character, and `tok` is the numeric-group
match at its own position, the search returns exactly `tok` — the token
then handed to numeric normalization. -/
theorem c7_first_numeric_downstream (label pre mid tok post : List Char)
    (hlabel : label ≠ [])
    (hpre : ∀ i, i < pre.length →
      matchesAt label (List.drop i (pre ++ (label ++ (mid ++ (tok ++ post))))) = false)
    (hmid : ∀ c ∈ mid, numHead c = false ∧ c ≠ '\n')
    (htok : numTokenMatch (tok ++ post) = some (tok, post)) :
    searchFrom label (pre ++ (label ++ (mid ++ (tok ++ post)))) = some tok := by
  rw [searchFrom_skip label pre _ hpre]
  obtain ⟨l0, ls, hl⟩ := List.exists_cons_of_ne_nil hlabel
  have hm : matchesAt label (label ++ (mid ++ (tok ++ post))) = true :=
    matchesAt_self_append label (mid ++ (tok ++ post))
  have hdrop : List.drop label.length (label ++ (mid ++ (tok ++ post))) =
      mid ++ (tok ++ post) := List.drop_left label (mid ++ (tok ++ post))
  rw [hl] at hm hdrop ⊢
  rw [List.cons_append] at hm hdrop
  show searchFrom (l0 :: ls) (l0 :: (ls ++ (mid ++ (tok ++ post)))) = some tok
  rw [searchFrom, if_pos hm]
  have : List.drop (l0 :: ls).length (l0 :: (ls ++ (mid ++ (tok ++ post)))) =
      mid ++ (tok ++ post) := hdrop
  rw [this, scanNum_skip mid (tok ++ post) hmid, scanNum_at_token tok post htok]

/-- Witness for C7: in `Total Revenue: 4,500 x` the label `Revenue`
resolves to the downstream token `4,500`. -/
theorem c7_first_numeric_downstream_witness :
    searchFrom "Revenue".toList "Total Revenue: 4,500 x".toList = some "4,500".toList := by
  have h := c7_first_numeric_downstream "Revenue".toList "Total ".toList ": ".toList
      "4,500".toList " x".toList (by decide) (by decide) (by decide) (by decide)
  rw [show "Total Revenue: 4,500 x".toList =
      "Total ".toList ++ ("Revenue".toList ++ (": ".toList ++ ("4,500".toList ++ " x".toList)))
    from by decide]
  exact h

/-- Helper: rendered digit characters are digits. -/
theorem decChar_isDigit (m : Nat) : (decChar m).isDigit = true := by
  unfold decChar
  repeat' split
  all_goals decide

/-- Helper: rendering then reading a single digit is the identity. -/
theorem digitVal_decChar (m : Nat) (h : m < 10) : digitVal (decChar m) = m := by
  interval_cases m <;> decide

/-- Helper: reading digits distributes over append via the accumulator. -/
theorem digitsToNatAux_append (acc : Nat) (xs ys : List Char) :
    digitsToNatAux acc (xs ++ ys) = digitsToNatAux (digitsToNatAux acc xs) ys := by
  induction xs generalizing acc with
  | nil => rfl
  | cons c cs ih =>
    show digitsToNatAux (acc * 10 + digitVal c) (cs ++ ys) =
      digitsToNatAux (digitsToNatAux (acc * 10 + digitVal c) cs) ys
    exact ih _

/-- Helper: reading one more trailing digit multiplies by ten and adds it. -/
theorem digitsToNat_snoc (l : List Char) (c : Char) :
    digitsToNat (l ++ [c]) = digitsToNat l * 10 + digitVal c := by
  unfold digitsToNat
  rw [digitsToNatAux_append]
  rfl

/-- Helper: every rendered character of a natural number is a digit. -/
theorem natDigitsRev_digits (n : Nat) : ∀ c ∈ natDigitsRev n, c.isDigit = true := by
  induction n using Nat.strong_induction_on with
  | _ n ih =>
    intro c hc
    rw [natDigitsRev] at hc
    by_cases h : n = 0
    · rw [dif_pos h] at hc
      simp at hc
    · rw [dif_neg h] at hc
      rcases List.mem_cons.mp hc with h1 | h1
      · rw [h1]; exact decChar_isDigit _
      · exact ih (n / 10) (Nat.div_lt_self (Nat.pos_of_ne_zero h) (by decide)) c h1

/-- Helper: reading back the reversed digit rendering recovers the number. -/
theorem digitsToNat_natDigitsRev (n : Nat) :
    digitsToNat (natDigitsRev n).reverse = n := by
  induction n using Nat.strong_induction_on with
  | _ n ih =>
    rw [natDigitsRev]
    by_cases h : n = 0
    · rw [dif_pos h, h]; rfl
    · rw [dif_neg h]
      rw [List.reverse_cons, digitsToNat_snoc,
        ih (n / 10) (Nat.div_lt_self (Nat.pos_of_ne_zero h) (by decide)),
        digitVal_decChar _ (Nat.mod_lt n (by decide))]
      omega

/-- Helper: every character of the decimal rendering is a digit. -/
theorem natToDigits_digits (n : Nat) : ∀ c ∈ natToDigits n, c.isDigit = true := by
  unfold natToDigits
  by_cases h : n = 0
  · rw [if_pos h]; intro c hc; simp at hc; rw [hc]; decide
  · rw [if_neg h]; intro c hc; exact natDigitsRev_digits n c (List.mem_reverse.mp hc)

/-- Helper: reading the decimal rendering recovers the number. -/
theorem digitsToNat_natToDigits (n : Nat) : digitsToNat (natToDigits n) = n := by
  unfold natToDigits
  by_cases h : n = 0
  · rw [if_pos h, h]; rfl
  · rw [if_neg h]; exact digitsToNat_natDigitsRev n

/-- Helper: the decimal rendering is never empty. -/
theorem natToDigits_ne_nil (n : Nat) : natToDigits n ≠ [] := by
  unfold natToDigits
  by_cases h : n = 0
  · rw [if_pos h]; simp
  · rw [if_neg h]
    intro he
    have := digitsToNat_natDigitsRev n
    rw [he] at this
    exact h (by simpa using this.symm)

/-- Helper: a number below `10 ^ k` renders to at most `k` digits. -/
theorem natDigitsRev_length_le (k : Nat) : ∀ n, n < 10 ^ k → (natDigitsRev n).length ≤ k := by
  induction k with
  | zero =>
    intro n hn
    have : n = 0 := by omega
    rw [this, natDigitsRev]
    simp
  | succ k ih =>
    intro n hn
    rw [natDigitsRev]
    by_cases h : n = 0
    · rw [dif_pos h]; simp
    · rw [dif_neg h]
      have : n / 10 < 10 ^ k := by
        rw [Nat.div_lt_iff_lt_mul (by decide)]
        calc n < 10 ^ (k + 1) := hn
        _ = 10 ^ k * 10 := by ring
      simpa using Nat.succ_le_succ (ih (n / 10) this)

/-- Helper: length bound for the decimal rendering. -/
theorem natToDigits_length_le (n k : Nat) (hn : n < 10 ^ k) (hk : 1 ≤ k) :
    (natToDigits n).length ≤ k := by
  unfold natToDigits
  by_cases h : n = 0
  · rw [if_pos h]; simpa using hk
  · rw [if_neg h]
    simpa using natDigitsRev_length_le k n hn

/-- Helper: leading zeros read to zero. -/
theorem digitsToNatAux_zero_replicate (k : Nat) :
    digitsToNatAux 0 (List.replicate k '0') = 0 := by
  induction k with
  | zero => rfl
  | succ k ih =>
    show digitsToNatAux (0 * 10 + digitVal '0') (List.replicate k '0') = 0
    have : 0 * 10 + digitVal '0' = 0 := by decide
    rw [this]
    exact ih

/-- Helper: zero-padding does not change the value read. -/
theorem digitsToNat_padLeft (d : Nat) (l : List Char) :
    digitsToNat (padLeft d l) = digitsToNat l := by
  unfold padLeft digitsToNat
  rw [digitsToNatAux_append, digitsToNatAux_zero_replicate]

/-- Helper: padding to length `d` yields length `d`. -/
theorem padLeft_length (d : Nat) (l : List Char) (h : l.length ≤ d) :
    (padLeft d l).length = d := by
  unfold padLeft
  simp
  omega

/-- Helper: padding with zeros keeps every character a digit. -/
theorem padLeft_digits (d : Nat) (l : List Char) (h : ∀ c ∈ l, c.isDigit = true) :
    ∀ c ∈ padLeft d l, c.isDigit = true := by
  intro c hc
  rcases List.mem_append.mp hc with h1 | h1
  · rw [List.eq_of_mem_replicate h1]; decide
  · exact h c h1

/-- Helper: the greedy class match stops exactly at the first failing
character. -/
theorem takeWhileP_append_stop (p : Char → Bool) (xs : List Char) (y : Char) (ys : List Char)
    (hx : ∀ c ∈ xs, p c = true) (hy : p y = false) :
    takeWhileP p (xs ++ y :: ys) = (xs, y :: ys) := by
  induction xs with
  | nil =>
    show takeWhileP p (y :: ys) = ([], y :: ys)
    unfold takeWhileP
    rw [if_neg (by rw [hy]; exact Bool.false_ne_true)]
  | cons c cs ih =>
    have hc := hx c (List.mem_cons_self c cs)
    show takeWhileP p (c :: (cs ++ y :: ys)) = (c :: cs, y :: ys)
    unfold takeWhileP
    rw [if_pos hc, ih (fun d hd => hx d (List.mem_cons_of_mem c hd))]

/-- Helper: the greedy class match consumes a fully matching list. -/
theorem takeWhileP_all (p : Char → Bool) (xs : List Char)
    (hx : ∀ c ∈ xs, p c = true) : takeWhileP p xs = (xs, []) := by
  induction xs with
  | nil => rfl
  | cons c cs ih =>
    have hc := hx c (List.mem_cons_self c cs)
    unfold takeWhileP
    rw [if_pos hc, ih (fun d hd => hx d (List.mem_cons_of_mem c hd))]

/-- Decimal-string rendering of a non-negative rational: `v.den` decimal
places (always enough when the denominator divides a power of ten). -/
def renderPosDec (v : ℚ) : List Char :=
  natToDigits (v.num.toNat * 10 ^ v.den / v.den / 10 ^ v.den) ++
    '.' :: padLeft v.den (natToDigits (v.num.toNat * 10 ^ v.den / v.den % 10 ^ v.den))

/-- Decimal-string rendering of a rational (sign, digits, point, digits). -/
def renderDec (v : ℚ) : List Char :=
  if v < 0 then '-' :: renderPosDec (-v) else renderPosDec v

/-- Helper: `float()` on `digits.digits` evaluates the two digit blocks. -/
theorem pyFloatCore_split (ip fp : List Char)
    (hip : ∀ c ∈ ip, c.isDigit = true) (hipne : ip ≠ [])
    (hfp : ∀ c ∈ fp, c.isDigit = true) :
    pyFloatCore (ip ++ '.' :: fp) =
      some (mkRat (digitsToNat ip * 10 ^ fp.length + digitsToNat fp) (10 ^ fp.length)) := by
  unfold pyFloatCore
  rw [takeWhileP_append_stop Char.isDigit ip '.' fp hip (by decide)]
  dsimp only
  rw [if_pos rfl, takeWhileP_all Char.isDigit fp hfp]
  dsimp only
  rw [if_pos rfl, if_neg (fun hand => hipne hand.1)]

/-- Helper: parsing the decimal rendering of a non-negative value whose
denominator divides a power of ten recovers the value exactly. -/
theorem pyFloatCore_renderPosDec (v : ℚ) (hv : 0 ≤ v) (hdvd : (v.den : ℕ) ∣ 10 ^ v.den) :
    pyFloatCore (renderPosDec v) = some v := by
  set d := v.den with hd
  set n := v.num.toNat * 10 ^ d / v.den with hn
  have hdpos : 0 < d := v.pos
  have hexact : n * v.den = v.num.toNat * 10 ^ d :=
    Nat.div_mul_cancel (Dvd.dvd.mul_left hdvd _)
  have hfplen : (padLeft d (natToDigits (n % 10 ^ d))).length = d :=
    padLeft_length d _ (natToDigits_length_le _ d
      (Nat.mod_lt _ (Nat.pos_pow_of_pos d (by decide))) hdpos)
  have hrender : renderPosDec v =
      natToDigits (n / 10 ^ d) ++ '.' :: padLeft d (natToDigits (n % 10 ^ d)) := rfl
  rw [hrender, pyFloatCore_split _ _ (natToDigits_digits _) (natToDigits_ne_nil _)
    (padLeft_digits d _ (natToDigits_digits _))]
  rw [hfplen, digitsToNat_natToDigits, digitsToNat_padLeft, digitsToNat_natToDigits]
  congr 1
  have hnumN : n / 10 ^ d * 10 ^ d + n % 10 ^ d = n := by
    rw [Nat.mul_comm]
    exact Nat.div_add_mod n (10 ^ d)
  have hden : (v.den : ℚ) ≠ 0 := by
    have := v.den_nz
    exact_mod_cast this
  have hpow : ((10 : ℚ)) ^ d ≠ 0 := pow_ne_zero _ (by norm_num)
  have hIntNum : ((v.num.toNat : ℕ) : ℚ) = (v.num : ℚ) := by
    have h1 : (v.num.toNat : ℤ) = v.num := Int.toNat_of_nonneg (Rat.num_nonneg.mpr hv)
    exact_mod_cast congrArg (fun z : ℤ => (z : ℚ)) h1
  have hq : (n : ℚ) * (v.den : ℚ) = (v.num : ℚ) * 10 ^ d := by
    have h1 : ((n * v.den : ℕ) : ℚ) = ((v.num.toNat * 10 ^ d : ℕ) : ℚ) := by
      exact_mod_cast hexact
    push_cast at h1
    rw [hIntNum] at h1
    exact_mod_cast h1
  have hvnum : (v.num : ℚ) = v * (v.den : ℚ) := ((div_eq_iff hden).mp (Rat.num_div_den v))
  rw [hvnum] at hq
  have hcast : ((n : ℕ) : ℚ) = v * 10 ^ d := by
    have h2 : (n : ℚ) * (v.den : ℚ) = (v * 10 ^ d) * (v.den : ℚ) := by
      rw [hq]; ring
    exact mul_right_cancel₀ hden h2
  have hnumZ : ((n / 10 ^ d : ℕ) : ℤ) * (10 : ℤ) ^ d + ((n % 10 ^ d : ℕ) : ℤ) = (n : ℤ) := by
    exact_mod_cast hnumN
  rw [hnumZ, Rat.mkRat_eq_div]
  push_cast
  rw [div_eq_iff hpow]
  exact_mod_cast hcast

/-- Helper: a divisor of some power of ten divides the power of ten with
its own exponent. -/
theorem dvd_ten_pow_self (d : Nat) : ∀ L, d ∣ 10 ^ L → d ∣ 10 ^ d := by
  induction d using Nat.strong_induction_on with
  | _ d ih =>
    intro L hL
    rcases Nat.eq_zero_or_pos d with h0 | hpos
    · subst h0
      have h10 : 0 < (10 : Nat) ^ L := Nat.pos_pow_of_pos L (by decide)
      have := Nat.eq_zero_of_zero_dvd hL
      omega
    rcases Nat.lt_or_ge d 2 with h1 | h2
    · have : d = 1 := by omega
      rw [this]
      exact one_dvd _
    · obtain ⟨p, hp, hpd⟩ := Nat.exists_prime_and_dvd (show d ≠ 1 by omega)
      have hp10 : p ∣ 10 := hp.dvd_of_dvd_pow (hpd.trans hL)
      obtain ⟨m, hm⟩ := hpd
      have hmne : m ≠ 0 := by
        intro h0
        rw [h0, Nat.mul_zero] at hm
        omega
      have hp2 : 2 ≤ p := hp.two_le
      have hmlt : m < d := by
        rw [hm]
        calc m < 2 * m := by omega
        _ ≤ p * m := Nat.mul_le_mul_right m hp2
      have hmdvd : m ∣ 10 ^ L := (Dvd.intro p (by rw [Nat.mul_comm]; exact hm.symm)).trans hL
      have hmm : m ∣ 10 ^ m := ih m hmlt L hmdvd
      have hd10 : d ∣ 10 * 10 ^ m := by
        rw [hm]
        exact Nat.mul_dvd_mul hp10 hmm
      have : (10 : Nat) * 10 ^ m = 10 ^ (m + 1) := by ring
      rw [this] at hd10
      exact hd10.trans (Nat.pow_dvd_pow 10 (by omega))

/-- Helper: the reduced denominator of `mkRat` divides the given one. -/
theorem mkRat_den_dvd (N : ℤ) (m : ℕ) : ((mkRat N m).den : ℕ) ∣ m := by
  have h := Rat.den_dvd N (m : ℤ)
  rw [← Rat.mkRat_eq_divInt] at h
  exact_mod_cast h

/-- Helper: every value `float()` produces is a fraction over a power of
ten. -/
theorem pyFloatCore_shape (s : List Char) (v : ℚ) (h : pyFloatCore s = some v) :
    ∃ (N : ℤ) (l : ℕ), v = mkRat N (10 ^ l) := by
  unfold pyFloatCore at h
  dsimp only at h
  split at h
  · split at h
    · exact absurd h (by simp)
    · refine ⟨digitsToNat (takeWhileP Char.isDigit s).1, 0, ?_⟩
      rw [pow_zero]
      exact (Option.some.injEq .. ▸ h).symm
  · split at h
    · split at h
      · split at h
        · exact absurd h (by simp)
        · refine ⟨_, _, (Option.some.injEq .. ▸ h).symm⟩
      · exact absurd h (by simp)
    · exact absurd h (by simp)

/-- Helper: the denominator of any parsed value divides a power of ten. -/
theorem pyFloat_den_dvd (s : List Char) (v : ℚ) (h : pyFloat s = some v) :
    ∃ L, (v.den : ℕ) ∣ 10 ^ L := by
  have core : ∀ (s' : List Char) (w : ℚ), pyFloatCore s' = some w → ∃ L, (w.den : ℕ) ∣ 10 ^ L := by
    intro s' w hw
    obtain ⟨N, l, hNl⟩ := pyFloatCore_shape s' w hw
    exact ⟨l, hNl ▸ mkRat_den_dvd N (10 ^ l)⟩
  unfold pyFloat at h
  rcases s with _ | ⟨c, r⟩
  · exact core [] v h
  · dsimp only at h
    split_ifs at h
    · obtain ⟨w, hw, hneg⟩ := Option.map_eq_some'.mp h
      obtain ⟨L, hL⟩ := core r w hw
      exact ⟨L, by rw [← hneg, Rat.neg_den]; exact hL⟩
    · exact core r v h
    · exact core (c :: r) v h

/-- Helper: a digit is none of the separator or sign characters. -/
theorem isDigit_not_special (c : Char) (h : c.isDigit = true) :
    c ≠ ',' ∧ c ≠ '-' ∧ c ≠ '+' ∧ c ≠ '.' := by
  refine ⟨?_, ?_, ?_, ?_⟩ <;> (intro he; rw [he] at h; exact absurd h (by decide))

/-- Helper: the rendering consists of digits and one decimal point. -/
theorem renderPosDec_chars (v : ℚ) :
    ∀ c ∈ renderPosDec v, c.isDigit = true ∨ c = '.' := by
  intro c hc
  unfold renderPosDec at hc
  rcases List.mem_append.mp hc with h1 | h1
  · exact Or.inl (natToDigits_digits _ c h1)
  · rcases List.mem_cons.mp h1 with h2 | h2
    · exact Or.inr h2
    · exact Or.inl (padLeft_digits _ _ (natToDigits_digits _) c h2)

/-- Helper: the rendering carries no thousands separators. -/
theorem stripCommas_renderPosDec (v : ℚ) :
    stripCommas (renderPosDec v) = renderPosDec v := by
  unfold stripCommas
  rw [List.filter_eq_self]
  intro c hc
  rcases renderPosDec_chars v c hc with h | h
  · simpa using (isDigit_not_special c h).1
  · rw [h]; decide

/-- Helper: the signless parse of the rendering starts at a digit, so the
sign dispatch of `float()` is the identity on it. -/
theorem pyFloat_renderPosDec (v : ℚ) (hv : 0 ≤ v) (hdvd : (v.den : ℕ) ∣ 10 ^ v.den) :
    pyFloat (renderPosDec v) = some v := by
  have hhead : ∃ c cs, renderPosDec v = c :: cs ∧ c.isDigit = true := by
    obtain ⟨c, cs, hc⟩ := List.exists_cons_of_ne_nil (natToDigits_ne_nil
      (v.num.toNat * 10 ^ v.den / v.den / 10 ^ v.den))
    refine ⟨c, cs ++ '.' :: padLeft v.den (natToDigits (v.num.toNat * 10 ^ v.den / v.den % 10 ^ v.den)), ?_, ?_⟩
    · unfold renderPosDec
      rw [hc]
      rfl
    · exact natToDigits_digits _ c (hc ▸ List.mem_cons_self c cs)
  obtain ⟨c, cs, hcons, hdig⟩ := hhead
  rw [hcons]
  unfold pyFloat
  dsimp only
  rw [if_neg (isDigit_not_special c hdig).2.1, if_neg (isDigit_not_special c hdig).2.2.1]
  rw [← hcons]
  exact pyFloatCore_renderPosDec v hv hdvd

/-- Helper: separator stripping keeps a non-separator head. -/
theorem stripCommas_cons (c : Char) (l : List Char) (h : c ≠ ',') :
    stripCommas (c :: l) = c :: stripCommas l := by
  simp [stripCommas, h]

/-- C9: numeric normalization is idempotent: when normalizing a token
yields the value `v`, normalizing the decimal-string rendering of `v`
(sign, integer digits, point, fractional digits) yields `v` again. -/
theorem c9_normalize_idempotent (t : List Char) (v : ℚ) (h : normalizeTok t = some v) :
    normalizeTok (renderDec v) = some v := by
  obtain ⟨L, hL⟩ := pyFloat_den_dvd (stripCommas t) v h
  have hdd : (v.den : ℕ) ∣ 10 ^ v.den := dvd_ten_pow_self v.den L hL
  unfold renderDec
  by_cases hneg : v < 0
  · rw [if_pos hneg]
    have hdd2 : ((-v).den : ℕ) ∣ 10 ^ (-v).den := by rw [Rat.neg_den]; exact hdd
    unfold normalizeTok
    rw [stripCommas_cons _ _ (by decide), stripCommas_renderPosDec]
    unfold pyFloat
    dsimp only
    rw [if_pos rfl, pyFloatCore_renderPosDec (-v) (by linarith) hdd2]
    simp
  · rw [if_neg hneg]
    unfold normalizeTok
    rw [stripCommas_renderPosDec]
    exact pyFloat_renderPosDec v (not_lt.mp hneg) hdd

/-- Witness for C9 at the token `1,234`, which normalizes to 1234. -/
theorem c9_normalize_idempotent_witness :
    normalizeTok (renderDec 1234) = some 1234 :=
  c9_normalize_idempotent "1,234".toList 1234 (by decide)
